import Mathlib

/-!
# Verification of the TaskManager backend realtime/webhook subsystem

Shallow embedding of the repository's webhook ingress (WebhookHandler /
WebhookProcessor / WebhookVerifier), the socket connection registry
(SocketManager) and the realtime event dispatcher (SocketEventHandlers),
together with proofs of the behavioural claims about them.

Modelling conventions:
* JavaScript strings are Lean `String`s; `undefined` is `Option.none`;
  JS truthiness of a string value is `some s` with `s ≠ ""`.
* JS `Map`/object dictionaries are association lists with unique keys by
  construction; `Map.get`/`Map.set`/`Map.delete` are `mapGet`/`mapSet`/
  `mapDelete` below.
* `crypto.createHmac(alg, secret).update(msg).digest('hex')` is an abstract
  total function `hmacHex : String → String → String → String`
  (algorithm, secret, message ↦ hex digest); the claims quantify over it.
* `crypto.timingSafeEqual(Buffer.from a, Buffer.from b)` throws when the
  buffer lengths differ and otherwise returns byte equality; it is modelled
  in the `Except` monad.  Length is measured in characters, which yields
  the same observable accept/reject outcome as byte length, because equal
  strings always have equal length under either measure.
* JS `try { body } catch { return false }` is modelled by writing `body` as
  an `Except String Bool` (the `...Try` functions, whose `Except.error`
  values are the exceptions the body can throw) and mapping every error to
  `false` in the wrapping function.
-/

/-- Generic association-list lookup (first match), modelling `Map.get`. -/
def mapGet {κ α : Type} [DecidableEq κ] : List (κ × α) → κ → Option α
  | [], _ => none
  | e :: rest, k => if e.1 = k then some e.2 else mapGet rest k

/-- Association-list update-or-append, modelling `Map.set` (keys stay unique). -/
def mapSet {κ α : Type} [DecidableEq κ] : List (κ × α) → κ → α → List (κ × α)
  | [], k, v => [(k, v)]
  | e :: rest, k, v => if e.1 = k then (k, v) :: rest else e :: mapSet rest k v

/-- Association-list removal, modelling `Map.delete`. -/
def mapDelete {κ α : Type} [DecidableEq κ] : List (κ × α) → κ → List (κ × α)
  | [], _ => []
  | e :: rest, k => if e.1 = k then mapDelete rest k else e :: mapDelete rest k

/-- Pointwise transformation of the values of an association list. -/
def mapValues {κ α : Type} (g : κ → α → α) : List (κ × α) → List (κ × α)
  | [] => []
  | e :: rest => (e.1, g e.1 e.2) :: mapValues g rest

/-! ## Basic lemmas about the map model -/

theorem mapGet_set_self {κ α : Type} [DecidableEq κ] (m : List (κ × α)) (k : κ) (v : α) :
    mapGet (mapSet m k v) k = some v := by
  induction m with
  | nil => simp [mapGet, mapSet]
  | cons e rest ih =>
    by_cases h : e.1 = k <;> simp [mapGet, mapSet, h, ih]

theorem mapGet_set_ne {κ α : Type} [DecidableEq κ] (m : List (κ × α)) (k k2 : κ) (v : α)
    (h : k2 ≠ k) : mapGet (mapSet m k v) k2 = mapGet m k2 := by
  induction m with
  | nil => simp [mapGet, mapSet, Ne.symm h]
  | cons e rest ih =>
    by_cases he : e.1 = k
    · subst he
      simp [mapGet, mapSet, Ne.symm h]
    · by_cases he2 : e.1 = k2 <;> simp [mapGet, mapSet, he, he2, h, Ne.symm h, ih]

theorem mapGet_del_self {κ α : Type} [DecidableEq κ] (m : List (κ × α)) (k : κ) :
    mapGet (mapDelete m k) k = none := by
  induction m with
  | nil => simp [mapGet, mapDelete]
  | cons e rest ih =>
    by_cases h : e.1 = k <;> simp [mapGet, mapDelete, h, ih]

theorem mapGet_del_ne {κ α : Type} [DecidableEq κ] (m : List (κ × α)) (k k2 : κ)
    (h : k2 ≠ k) : mapGet (mapDelete m k) k2 = mapGet m k2 := by
  induction m with
  | nil => simp [mapGet, mapDelete]
  | cons e rest ih =>
    by_cases he : e.1 = k
    · have hne : ¬ e.1 = k2 := fun hk => h (hk ▸ he ▸ rfl)
      simp [mapGet, mapDelete, he, hne, h, Ne.symm h, ih]
    · by_cases he2 : e.1 = k2 <;> simp [mapGet, mapDelete, he, he2, h, Ne.symm h, ih]

theorem mapDelete_of_get_none {κ α : Type} [DecidableEq κ] (m : List (κ × α)) (k : κ)
    (h : mapGet m k = none) : mapDelete m k = m := by
  induction m with
  | nil => simp [mapDelete]
  | cons e rest ih =>
    by_cases he : e.1 = k
    · simp [mapGet, he] at h
    · simp only [mapGet, he, if_neg he, ite_false] at h
      simp [mapDelete, he, ih h]

theorem mapSet_of_get_eq {κ α : Type} [DecidableEq κ] (m : List (κ × α)) (k : κ) (v : α)
    (h : mapGet m k = some v) : mapSet m k v = m := by
  induction m with
  | nil => simp [mapGet] at h
  | cons e rest ih =>
    by_cases he : e.1 = k
    · simp only [mapGet, if_pos he] at h
      cases e with
      | mk k1 v1 =>
        simp only at he
        subst he
        simp only [Option.some.injEq] at h
        subst h
        simp [mapSet]
    · simp only [mapGet, if_neg he, ite_false] at h
      simp [mapSet, he, ih h]

theorem mapGet_mapValues {κ α : Type} [DecidableEq κ] (g : κ → α → α) (m : List (κ × α))
    (k : κ) : mapGet (mapValues g m) k = (mapGet m k).map (g k) := by
  induction m with
  | nil => simp [mapGet, mapValues]
  | cons e rest ih =>
    by_cases he : e.1 = k <;> simp [mapGet, mapValues, he, ih]

/-! ## JS string utilities -/

/-- JS truthiness of a possibly-`undefined` string value. -/
def truthyOpt : Option String → Bool
  | some s => s ≠ ""
  | none => false

/-- JS `a || b` on possibly-`undefined` string values. -/
def jsOr (a b : Option String) : Option String :=
  if truthyOpt a then a else b

/-- JS chained `a || b || ... || dflt` ending in a string literal default. -/
def jsChain (l : List (Option String)) (dflt : String) : String :=
  match l.find? (fun o => truthyOpt o) with
  | some (some v) => v
  | _ => dflt

/-- Splitting a character list at every occurrence of a separator,
modelling JS `String.prototype.split` with a single-character separator
(`"".split(sep)` gives `[""]`, and separators at the ends give empty pieces). -/
def splitChar (sep : Char) : List Char → List (List Char)
  | [] => [[]]
  | c :: rest =>
    let r := splitChar sep rest
    if c = sep then [] :: r
    else
      match r with
      | [] => [[c]]
      | h :: t => (c :: h) :: t

/-- Numeric value of a list of decimal digit characters. -/
def natOfDigits (ds : List Char) : Nat :=
  ds.foldl (fun a c => a * 10 + (c.toNat - 48)) 0

/-- JS `parseInt(s, 10)`: skip leading whitespace, optional sign, then the
longest decimal-digit prefix; `none` models `NaN`. -/
def parseIntJS (s : String) : Option Int :=
  let cs := s.data.dropWhile (fun c => c.isWhitespace)
  let signAndRest : Int × List Char :=
    match cs with
    | '-' :: r => (-1, r)
    | '+' :: r => (1, r)
    | r => (1, r)
  let ds := signAndRest.2.takeWhile (fun c => c.isDigit)
  if ds.isEmpty then none
  else some (signAndRest.1 * (natOfDigits ds : Int))

/-- Model of `s.startsWith(pre)` on the character-list representation. -/
def startsWithStr (s pre : String) : Bool :=
  s.data.take pre.data.length = pre.data

/-- Model of `s.substring(n)` (drop the first `n` characters). -/
def dropStr (s : String) (n : Nat) : String :=
  String.mk (s.data.drop n)

/-! ## WebhookVerifier (src WebhookVerifier.js)

`hmacHex algorithm secret message` stands for
`crypto.createHmac(algorithm, secret).update(message).digest('hex')`. -/

/-- Model of `crypto.timingSafeEqual(Buffer.from a, Buffer.from b)`: throws a
`RangeError` when the lengths differ, otherwise compares contents. -/
def timingSafeEqual (a b : String) : Except String Bool :=
  if a.length = b.length then Except.ok (a = b)
  else Except.error "RangeError: input buffers must have the same byte length"

/-- The `try` block of `WebhookVerifier.verifyHMAC`: compute the digest,
strip an `<algorithm>=` prefix from the signature if present, then
constant-time-compare. -/
def verifyHMACTry (hmacHex : String → String → String → String)
    (payload signature secret algorithm : String) : Except String Bool :=
  let digest := hmacHex algorithm secret payload
  let signatureToCompare :=
    if startsWithStr signature (algorithm ++ "=")
    then dropStr signature (algorithm.length + 1)
    else signature
  timingSafeEqual digest signatureToCompare

/-- Model of `WebhookVerifier.verifyHMAC`: falsy-argument guard, then the `try`
block with every thrown error caught and turned into `false`. -/
def verifyHMAC (hmacHex : String → String → String → String)
    (payload signature secret algorithm : String) : Bool :=
  if payload = "" ∨ signature = "" ∨ secret = "" then false
  else
    match verifyHMACTry hmacHex payload signature secret algorithm with
    | Except.ok b => b
    | Except.error _ => false

/-- Model of `WebhookVerifier.verifyGitHub`: missing-signature guard, then HMAC
verification with the fixed sha256 algorithm. -/
def verifyGitHub (hmacHex : String → String → String → String)
    (payload signature secret : String) : Bool :=
  if signature = "" then false
  else verifyHMAC hmacHex payload signature secret "sha256"

/-- Model of `WebhookVerifier.verifyGeneric`: delegates to `verifyHMAC` with the
algorithm taken from the options (default sha256). -/
def verifyGeneric (hmacHex : String → String → String → String)
    (payload signature secret algorithm : String) : Bool :=
  verifyHMAC hmacHex payload signature secret algorithm

/-- One element of a Stripe signature header: JS
`const [key, value] = element.split('=')` (extra `=`-separated parts are
dropped; a part-less element leaves `value` undefined). -/
def splitKVChars (cs : List Char) : String × Option String :=
  match splitChar '=' cs with
  | [] => ("", none)
  | [k] => (String.mk k, none)
  | k :: v :: _ => (String.mk k, some (String.mk v))

/-- The parsed `signatureItems` object of `verifyStripe`: split the header
on commas and turn each element into a key/value pair. -/
def stripeItems (signature : String) : List (String × Option String) :=
  (splitChar ',' signature.data).map splitKVChars

/-- Reading a field of the `signatureItems` object: the last assignment to
a key wins, and an assigned-`undefined` value reads as `undefined`. -/
def jsField (items : List (String × Option String)) (k : String) : Option String :=
  match items.reverse.find? (fun e => e.1 = k) with
  | some e => e.2
  | none => none

/-- The `try` block of `WebhookVerifier.verifyStripe`: parse the signature
header, require a truthy timestamp, reject a timestamp aged more than 300
seconds (a `NaN` age fails the `> 300` comparison and proceeds), recompute
the digest of `"<timestamp>.<payload>"` and constant-time-compare with
`v1`.  `Buffer.from(undefined)` throws when `v1` is absent. -/
def verifyStripeTry (hmacHex : String → String → String → String)
    (currentTime : Int) (payload signature secret : String) : Except String Bool :=
  let items := stripeItems signature
  match jsField items "t" with
  | none => Except.ok false
  | some ts =>
    if ts = "" then Except.ok false
    else if (match parseIntJS ts with
             | some n => decide (currentTime - n > 300)
             | none => false)
    then Except.ok false
    else
      let expectedSignature := hmacHex "sha256" secret (ts ++ "." ++ payload)
      match jsField items "v1" with
      | none => Except.error "TypeError: first argument must not be undefined"
      | some v1 => timingSafeEqual v1 expectedSignature

/-- Model of `WebhookVerifier.verifyStripe`: falsy-argument guard, then the `try`
block with every thrown error caught and turned into `false`.
`currentTime` is `Math.floor(Date.now() / 1000)` at verification time. -/
def verifyStripe (hmacHex : String → String → String → String)
    (currentTime : Int) (payload signature secret : String) : Bool :=
  if signature = "" ∨ secret = "" then false
  else
    match verifyStripeTry hmacHex currentTime payload signature secret with
    | Except.ok b => b
    | Except.error _ => false

/-! ## Claims C8, C9, C10 — signature verification -/

theorem catchFalse_or_okTrue (e : Except String Bool) :
    (match e with | Except.ok b => b | Except.error _ => false) = false
      ∨ e = Except.ok true := by
  cases e with
  | ok b => cases b
            · exact Or.inl rfl
            · exact Or.inr rfl
  | error msg => exact Or.inl rfl

/-- C8: for every validly-signed Stripe payload (the parsed signature header
has a numeric timestamp `t` and a `v1` digest equal to the sha256 HMAC of
`"<t>.<payload>"` under the secret), `verifyStripe` accepts exactly when the
timestamp is at most 300 seconds older than the verification-time clock:
age 301 is rejected and age 299 (and 300) accepted. -/
theorem stripe_replay_window_boundary
    (hmacHex : String → String → String → String) (currentTime n : Int)
    (payload signature secret ts : String)
    (hsig : signature ≠ "") (hsec : secret ≠ "")
    (hts : jsField (stripeItems signature) "t" = some ts)
    (hn : parseIntJS ts = some n)
    (hv1 : jsField (stripeItems signature) "v1"
      = some (hmacHex "sha256" secret (ts ++ "." ++ payload))) :
    verifyStripe hmacHex currentTime payload signature secret
      = decide (currentTime - n ≤ 300) := by
  have hts0 : ts ≠ "" := by
    intro h
    rw [h] at hn
    have he : parseIntJS "" = none := rfl
    rw [he] at hn
    cases hn
  unfold verifyStripe verifyStripeTry
  rw [if_neg (by simp [hsig, hsec])]
  simp only [hts, if_neg hts0, hn]
  by_cases hage : currentTime - n > 300
  · have hnle : ¬ (currentTime - n ≤ 300) := not_le.mpr hage
    simp [hage, hnle]
  · have hle : currentTime - n ≤ 300 := not_lt.mp hage
    simp [hage, hle, hv1, timingSafeEqual]

/-- C8 witness: a concrete validly-signed header `t=1000,v1=abc` is accepted
at clock 1299 (age 299) and rejected at clock 1301 (age 301). -/
theorem stripe_replay_window_boundary_witness :
    verifyStripe (fun _ _ _ => "abc") 1299 "p" "t=1000,v1=abc" "s" = true
    ∧ verifyStripe (fun _ _ _ => "abc") 1301 "p" "t=1000,v1=abc" "s" = false := by
  constructor
  · rw [stripe_replay_window_boundary (fun _ _ _ => "abc") 1299 1000 "p"
      "t=1000,v1=abc" "s" "1000" (by decide) (by decide) (by decide) (by decide)
      (by decide)]
    decide
  · rw [stripe_replay_window_boundary (fun _ _ _ => "abc") 1301 1000 "p"
      "t=1000,v1=abc" "s" "1000" (by decide) (by decide) (by decide) (by decide)
      (by decide)]
    decide

/-- C9: for every input to any of the verification schemes (generic HMAC,
GitHub, generic-webhook, Stripe), the caller either gets `false` or the
scheme's `try` body ran to completion with a successful digest match; in
particular every failure of the body — malformed signature, missing or
expired timestamp, digest mismatch, or digests of unequal length (an
exception inside the `try` block) — surfaces as the boolean `false`, and
the functions are total, so no exception reaches the caller. -/
theorem verification_failures_yield_false
    (hmacHex : String → String → String → String) (currentTime : Int)
    (payload signature secret algorithm : String) :
    (verifyHMAC hmacHex payload signature secret algorithm = false
      ∨ verifyHMACTry hmacHex payload signature secret algorithm = Except.ok true)
    ∧ (verifyGitHub hmacHex payload signature secret = false
      ∨ verifyHMACTry hmacHex payload signature secret "sha256" = Except.ok true)
    ∧ (verifyGeneric hmacHex payload signature secret algorithm = false
      ∨ verifyHMACTry hmacHex payload signature secret algorithm = Except.ok true)
    ∧ (verifyStripe hmacHex currentTime payload signature secret = false
      ∨ verifyStripeTry hmacHex currentTime payload signature secret = Except.ok true) := by
  have hh : verifyHMAC hmacHex payload signature secret algorithm = false
      ∨ verifyHMACTry hmacHex payload signature secret algorithm = Except.ok true := by
    unfold verifyHMAC
    by_cases hg : payload = "" ∨ signature = "" ∨ secret = ""
    · rw [if_pos hg]
      exact Or.inl rfl
    · rw [if_neg hg]
      exact catchFalse_or_okTrue _
  have hgh : verifyGitHub hmacHex payload signature secret = false
      ∨ verifyHMACTry hmacHex payload signature secret "sha256" = Except.ok true := by
    unfold verifyGitHub verifyHMAC
    by_cases hs : signature = ""
    · rw [if_pos hs]
      exact Or.inl rfl
    · rw [if_neg hs]
      by_cases hg : payload = "" ∨ signature = "" ∨ secret = ""
      · rw [if_pos hg]
        exact Or.inl rfl
      · rw [if_neg hg]
        exact catchFalse_or_okTrue _
  have hst : verifyStripe hmacHex currentTime payload signature secret = false
      ∨ verifyStripeTry hmacHex currentTime payload signature secret = Except.ok true := by
    unfold verifyStripe
    by_cases hg : signature = "" ∨ secret = ""
    · rw [if_pos hg]
      exact Or.inl rfl
    · rw [if_neg hg]
      exact catchFalse_or_okTrue _
  exact ⟨hh, hgh, hh, hst⟩

/-- C10: with an empty raw payload, generic HMAC verification — and with it
the GitHub and generic-webhook schemes — returns `false` for every
signature, secret, algorithm and HMAC function, even when the signature is
the correct digest of the empty string (the falsy-payload guard fires
before any digest is computed). -/
theorem empty_payload_never_verifies
    (hmacHex : String → String → String → String)
    (signature secret algorithm : String) :
    verifyHMAC hmacHex "" signature secret algorithm = false
    ∧ verifyGitHub hmacHex "" signature secret = false
    ∧ verifyGeneric hmacHex "" signature secret algorithm = false := by
  refine ⟨?_, ?_, ?_⟩
  · simp [verifyHMAC]
  · by_cases hs : signature = "" <;> simp [verifyGitHub, verifyHMAC, hs]
  · simp [verifyGeneric, verifyHMAC]

/-! ## Webhook ingress (WebhookProcessor.js and webhookHandler.js)

`JSON.parse` of the runtime is an abstract parameter
`parseJson : String → Option Payload` (`none` models a thrown
`SyntaxError`); a parsed payload is observed by the pipeline only through
its `action` / `type` / `event` fields.  A registered handler is a
function from the payload and the metadata bundle to `Except`, whose
`error` models a thrown/rejected handler. -/

/-- The fields of a parsed webhook payload that the pipeline reads. -/
structure Payload where
  action : Option String
  type : Option String
  event : Option String
deriving DecidableEq

/-- Metadata bundle passed to a registered handler. -/
structure WebhookMeta where
  source : String
  signature : Option String
  ip : String
  userAgent : Option String
  timestamp : String
deriving DecidableEq

/-- A registered handler: `(payload, metadata) => result or throw`. -/
def WHandler : Type := Payload → WebhookMeta → Except String String

/-- Result object of `WebhookProcessor.process`. -/
structure ProcessResult where
  success : Bool
  message : Option String
  error : Option String
  result : Option String
deriving DecidableEq

/-- Model of `WebhookProcessor.process`: look up the handler for the event type; no
handler gives a non-success result carrying a "no handler" message; a
handler error gives a non-success result carrying the error message;
otherwise success with the handler result. -/
def process (handlers : List (String × WHandler)) (eventType : String)
    (payload : Payload) (metadata : WebhookMeta) : ProcessResult :=
  match mapGet handlers eventType with
  | none =>
    { success := false
      message := some ("No handler registered for event type: " ++ eventType)
      error := none
      result := none }
  | some handler =>
    match handler payload metadata with
    | Except.ok r => { success := true, message := none, error := none, result := some r }
    | Except.error e => { success := false, message := none, error := some e, result := none }

/-- Model of `WebhookHandler` configuration. -/
structure WebhookConfig where
  requireSignature : Bool
  secrets : List (String × String)

/-- Model of `WebhookHandler.#extractSignature`: source-specific header set with a
fall-back to the generic headers. -/
def extractSignature (headers : List (String × String)) (source : String) :
    Option String :=
  let genericSig := jsOr (mapGet headers "x-signature") (mapGet headers "signature")
  let bySource :=
    if source = "github" then
      jsOr (mapGet headers "x-hub-signature-256") (mapGet headers "x-hub-signature")
    else if source = "stripe" then mapGet headers "stripe-signature"
    else if source = "generic" then genericSig
    else none
  jsOr bySource genericSig

/-- Model of `WebhookHandler.#extractEventType`: header-derived for GitHub,
payload-field-derived for Stripe, multi-fallback chain for anything else,
with the sentinel `"unknown"` when nothing matches. -/
def extractEventType (headers : List (String × String)) (payload : Payload)
    (source : String) : String :=
  if source = "github" then
    jsChain [mapGet headers "x-github-event", payload.action] "unknown"
  else if source = "stripe" then
    jsChain [payload.type] "unknown"
  else
    jsChain [mapGet headers "x-event-type", mapGet headers "x-webhook-event",
             payload.event, payload.type] "unknown"

/-- Model of `WebhookHandler.#getSecret`: per-source config secret, else the
`WEBHOOK_SECRET_<SOURCE>` environment variable, else the generic
`WEBHOOK_SECRET`; a falsy result is reported as "not configured". -/
def getSecret (cfg : WebhookConfig) (env : List (String × String))
    (source : String) : Option String :=
  let cfgSecret := mapGet cfg.secrets source
  let resolved :=
    if truthyOpt cfgSecret then cfgSecret
    else jsOr (mapGet env ("WEBHOOK_SECRET_" ++ source.toUpper)) (mapGet env "WEBHOOK_SECRET")
  match resolved with
  | some s => if s = "" then none else some s
  | none => none

/-- Model of `WebhookHandler.#verifySignature`: dispatch on the source name. -/
def verifySignature (hmacHex : String → String → String → String)
    (currentTime : Int) (source payload signature secret : String) : Bool :=
  if source = "github" then verifyGitHub hmacHex payload signature secret
  else if source = "stripe" then verifyStripe hmacHex currentTime payload signature secret
  else verifyGeneric hmacHex payload signature secret "sha256"

/-- The HTTP response produced by the webhook endpoint. -/
structure HttpResponse where
  status : Nat
  success : Bool
  message : String
  eventType : Option String
deriving DecidableEq

/-- Model of `WebhookHandler.#handleWebhook`: parse, extract and verify the
signature, classify the event type, run the processor, and convert a
non-success processor result into a thrown `ApiError(500, result.error ||
'Failed to process webhook')`, which the catch block renders as a 500
response with `success: false`. -/
def handleWebhook (parseJson : String → Option Payload)
    (hmacHex : String → String → String → String) (currentTime : Int)
    (cfg : WebhookConfig) (env : List (String × String))
    (handlers : List (String × WHandler))
    (source rawBody : String) (headers : List (String × String))
    (ip timestamp : String) : HttpResponse :=
  match parseJson rawBody with
  | none => { status := 400, success := false, message := "Invalid JSON payload", eventType := none }
  | some payload =>
    let signature := extractSignature headers source
    let afterAuth : HttpResponse :=
      let eventType := extractEventType headers payload source
      let metadata : WebhookMeta :=
        { source := source, signature := signature, ip := ip
          userAgent := mapGet headers "user-agent", timestamp := timestamp }
      let result := process handlers eventType payload metadata
      if result.success then
        { status := 200, success := true, message := "Webhook processed successfully"
          eventType := some eventType }
      else
        { status := 500, success := false
          message := (match result.error with
                      | some e => if e = "" then "Failed to process webhook" else e
                      | none => "Failed to process webhook")
          eventType := none }
    if cfg.requireSignature then
      match getSecret cfg env source with
      | none => { status := 401, success := false, message := "Webhook secret not configured", eventType := none }
      | some secret =>
        if verifySignature hmacHex currentTime source rawBody (signature.getD "") secret
        then afterAuth
        else { status := 401, success := false, message := "Invalid webhook signature", eventType := none }
    else afterAuth

/-! ## Claim C1 — unhandled event type at the webhook endpoint -/

theorem process_no_handler (handlers : List (String × WHandler)) (eventType : String)
    (payload : Payload) (metadata : WebhookMeta)
    (h : mapGet handlers eventType = none) :
    process handlers eventType payload metadata
      = { success := false
          message := some ("No handler registered for event type: " ++ eventType)
          error := none
          result := none } := by
  unfold process
  rw [h]

/-- C1 counterexample: a request that parses as JSON and passes signature
verification, classified to event type `task.created` with no registered
handler, receives a 500 server-error response with `success: false` — not
a success-shaped response (the processor's non-success "no handler" result
is converted into a thrown `ApiError(500, ...)` by the route). -/
theorem webhook_no_handler_counterexample :
    handleWebhook (fun _ => some ⟨none, none, some "task.created"⟩)
      (fun _ _ _ => "sig1") 0 ⟨true, [("generic", "g")]⟩ [] []
      "generic" "{}" [("x-signature", "sig1")] "127.0.0.1" "ts0"
    = { status := 500, success := false, message := "Failed to process webhook"
        eventType := none }
    ∧ process ([] : List (String × WHandler)) "task.created"
        ⟨none, none, some "task.created"⟩
        ⟨"generic", some "sig1", "127.0.0.1", none, "ts0"⟩
      = { success := false
          message := some "No handler registered for event type: task.created"
          error := none, result := none } := by
  constructor
  · decide
  · decide

/-- C1 (amended): for every webhook request that parses as JSON and passes
(or is exempted from) signature verification, if no handler is registered
for the classified event type, the processor reports a non-success result
whose message says no handler ran, and the endpoint returns a 500
server-error response with `success: false` and the generic message
`Failed to process webhook` — not a success-shaped response. -/
theorem webhook_no_handler_500 (parseJson : String → Option Payload)
    (hmacHex : String → String → String → String) (currentTime : Int)
    (cfg : WebhookConfig) (env : List (String × String))
    (handlers : List (String × WHandler))
    (source rawBody : String) (headers : List (String × String))
    (ip timestamp : String) (payload : Payload)
    (hp : parseJson rawBody = some payload)
    (hauth : cfg.requireSignature = false
      ∨ ∃ secret, getSecret cfg env source = some secret
          ∧ verifySignature hmacHex currentTime source rawBody
              ((extractSignature headers source).getD "") secret = true)
    (hnone : mapGet handlers (extractEventType headers payload source) = none) :
    handleWebhook parseJson hmacHex currentTime cfg env handlers source rawBody
        headers ip timestamp
      = { status := 500, success := false, message := "Failed to process webhook"
          eventType := none }
    ∧ (process handlers (extractEventType headers payload source) payload
        { source := source, signature := extractSignature headers source, ip := ip
          userAgent := mapGet headers "user-agent", timestamp := timestamp }).message
      = some ("No handler registered for event type: "
          ++ extractEventType headers payload source) := by
  constructor
  · unfold handleWebhook
    rw [hp]
    rcases hauth with hnosig | ⟨secret, hsec, hver⟩
    · simp [hnosig, process_no_handler _ _ payload _ hnone]
    · by_cases hreq : cfg.requireSignature
      · simp [hreq, hsec, hver, process_no_handler _ _ payload _ hnone]
      · simp [hreq, process_no_handler _ _ payload _ hnone]
  · rw [process_no_handler _ _ _ _ hnone]

/-- C1 witness: the amended claim applied at a concrete GitHub-style
request with a valid signature and no handler for event type `push`. -/
theorem webhook_no_handler_500_witness :
    handleWebhook (fun _ => some ⟨none, none, none⟩) (fun _ _ _ => "d") 0
      ⟨true, [("github", "sek")]⟩ [] [] "github" "{}"
      [("x-hub-signature-256", "sha256=d"), ("x-github-event", "push")]
      "127.0.0.1" "ts0"
    = { status := 500, success := false, message := "Failed to process webhook"
        eventType := none } :=
  (webhook_no_handler_500 (fun _ => some ⟨none, none, none⟩) (fun _ _ _ => "d") 0
    ⟨true, [("github", "sek")]⟩ [] [] "github" "{}"
    [("x-hub-signature-256", "sha256=d"), ("x-github-event", "push")]
    "127.0.0.1" "ts0" ⟨none, none, none⟩ rfl
    (Or.inr ⟨"sek", by decide, by decide⟩) rfl).1

/-! ## SocketEventHandlers (src app.js / SocketEventHandlers.js)

Each handler is modelled as a pure function from the authenticated user id
of the originating channel, the inbound message data, and the Room
Membership Oracle (`oracle projectId userId`, the
`ProjectMember.findOne(...)` existence check) to the ordered list of
observable effects it performs.  `emitSelf` is `socket.emit(event, ...)`;
`emitRoom room event` is `socket.to(room).emit(event, ...)` (delivered to
the room excluding the sender); `joinRoom`/`leaveRoom` are
`socket.join`/`socket.leave`; `oracleQuery` is the membership lookup.
There is no effect that closes the channel: no handler ever disconnects a
socket.  Message fields are modelled as optional strings with JS
truthiness. -/

/-- Fields of an inbound realtime message that the handlers destructure. -/
structure EventData where
  projectId : Option String
  task : Option String
  taskId : Option String
  project : Option String
  note : Option String
deriving DecidableEq

/-- Observable effect of a socket event handler, in execution order. -/
inductive SockEffect where
  | emitSelf (event message : String)
  | emitRoom (room event : String)
  | joinRoom (room : String)
  | leaveRoom (room : String)
  | oracleQuery (projectId userId : String)
deriving DecidableEq

/-- Model of `SocketEventHandlers.handleJoinProject`. -/
def handleJoinProject (oracle : String → String → Bool) (userId : String)
    (data : EventData) : List SockEffect :=
  if ¬ truthyOpt data.projectId then
    [SockEffect.emitSelf "error" "Project ID is required"]
  else
    let pid := data.projectId.getD ""
    SockEffect.oracleQuery pid userId ::
      (if ¬ oracle pid userId then
        [SockEffect.emitSelf "error" "You do not have access to this project"]
      else
        [SockEffect.joinRoom ("project:" ++ pid),
         SockEffect.emitSelf "joined:project" "Successfully joined project room",
         SockEffect.emitRoom ("project:" ++ pid) "user:joined"])

/-- Model of `SocketEventHandlers.handleLeaveProject` (a missing project id is a
silent early return — no error reply). -/
def handleLeaveProject (_oracle : String → String → Bool) (_userId : String)
    (data : EventData) : List SockEffect :=
  if ¬ truthyOpt data.projectId then []
  else
    let pid := data.projectId.getD ""
    [SockEffect.leaveRoom ("project:" ++ pid),
     SockEffect.emitSelf "left:project" "",
     SockEffect.emitRoom ("project:" ++ pid) "user:left"]

/-- Model of `SocketEventHandlers.handleTaskCreated`. -/
def handleTaskCreated (oracle : String → String → Bool) (userId : String)
    (data : EventData) : List SockEffect :=
  if ¬ (truthyOpt data.projectId && truthyOpt data.task) then
    [SockEffect.emitSelf "error" "Invalid task data"]
  else
    let pid := data.projectId.getD ""
    SockEffect.oracleQuery pid userId ::
      (if ¬ oracle pid userId then [SockEffect.emitSelf "error" "Access denied"]
       else [SockEffect.emitRoom ("project:" ++ pid) "task:created"])

/-- Model of `SocketEventHandlers.handleTaskUpdated` (missing fields and failed
membership are silent early returns). -/
def handleTaskUpdated (oracle : String → String → Bool) (userId : String)
    (data : EventData) : List SockEffect :=
  if ¬ (truthyOpt data.projectId && truthyOpt data.task) then []
  else
    let pid := data.projectId.getD ""
    SockEffect.oracleQuery pid userId ::
      (if ¬ oracle pid userId then []
       else [SockEffect.emitRoom ("project:" ++ pid) "task:updated"])

/-- Model of `SocketEventHandlers.handleTaskDeleted`. -/
def handleTaskDeleted (oracle : String → String → Bool) (userId : String)
    (data : EventData) : List SockEffect :=
  if ¬ (truthyOpt data.projectId && truthyOpt data.taskId) then []
  else
    let pid := data.projectId.getD ""
    SockEffect.oracleQuery pid userId ::
      (if ¬ oracle pid userId then []
       else [SockEffect.emitRoom ("project:" ++ pid) "task:deleted"])

/-- Model of `SocketEventHandlers.handleProjectCreated`: no membership lookup; the
confirmation is emitted to the originating channel only, never to a room. -/
def handleProjectCreated (_oracle : String → String → Bool) (_userId : String)
    (data : EventData) : List SockEffect :=
  if ¬ truthyOpt data.project then []
  else [SockEffect.emitSelf "project:created" ""]

/-- Model of `SocketEventHandlers.handleProjectUpdated`. -/
def handleProjectUpdated (oracle : String → String → Bool) (userId : String)
    (data : EventData) : List SockEffect :=
  if ¬ (truthyOpt data.projectId && truthyOpt data.project) then []
  else
    let pid := data.projectId.getD ""
    SockEffect.oracleQuery pid userId ::
      (if ¬ oracle pid userId then []
       else [SockEffect.emitRoom ("project:" ++ pid) "project:updated"])

/-- Model of `SocketEventHandlers.handleNoteCreated`. -/
def handleNoteCreated (oracle : String → String → Bool) (userId : String)
    (data : EventData) : List SockEffect :=
  if ¬ (truthyOpt data.projectId && truthyOpt data.note) then []
  else
    let pid := data.projectId.getD ""
    SockEffect.oracleQuery pid userId ::
      (if ¬ oracle pid userId then []
       else [SockEffect.emitRoom ("project:" ++ pid) "note:created"])

/-- Model of `SocketEventHandlers.handleTypingStart`: no membership lookup. -/
def handleTypingStart (_oracle : String → String → Bool) (_userId : String)
    (data : EventData) : List SockEffect :=
  if ¬ truthyOpt data.projectId then []
  else [SockEffect.emitRoom ("project:" ++ (data.projectId.getD "")) "typing:start"]

/-- Model of `SocketEventHandlers.handleTypingStop`. -/
def handleTypingStop (_oracle : String → String → Bool) (_userId : String)
    (data : EventData) : List SockEffect :=
  if ¬ truthyOpt data.projectId then []
  else [SockEffect.emitRoom ("project:" ++ (data.projectId.getD "")) "typing:stop"]

/-! ## Claims C2, C3 — dispatcher behaviour on inbound messages -/

/-- No effect in the trace closes the channel (there is no disconnect
effect in the model because no handler in the source ever closes a
socket); concretely, no effect in the trace is anything but an emission,
room join/leave or oracle query.  Kept as the room-emission absence
predicate used by C3. -/
def noRoomEmit (tr : List SockEffect) : Bool :=
  tr.all (fun e => match e with
    | SockEffect.emitRoom _ _ => false
    | _ => true)

/-- Scanning a trace front to back: every room emission is preceded by a
membership query for the given project and user. -/
def guardedFanout (pid userId : String) : List SockEffect → Bool
  | [] => true
  | SockEffect.emitRoom _ _ :: _ => false
  | SockEffect.oracleQuery p u :: rest =>
    if p = pid ∧ u = userId then true else guardedFanout pid userId rest
  | _ :: rest => guardedFanout pid userId rest

/-- C2 counterexample: a `leave:project` message with no project id
produces no effect at all — in particular no error message is emitted back
to the originating channel, contradicting the claim that every malformed
message is answered with an error. -/
theorem malformed_leave_project_silent :
    handleLeaveProject (fun _ _ => true) "u1" ⟨none, none, none, none, none⟩ = [] := by
  decide

/-- C2 (amended): for every message kind, a message failing that kind's
own required-field check (the source's malformedness guard: project id for
join/leave/typing, project id and task for the task kinds, task id for
deletion, the project object for the project kinds, the note object for
note creation) never closes the channel and triggers no room mutation or
broadcast: `join:project` and `task:created` reply with an error message
to the originating channel, while `leave:project`, `task:updated`,
`task:deleted`, `project:created`, `project:updated`, `note:created` and
the typing indicators are silently ignored (no reply at all). -/
theorem malformed_message_traces (oracle : String → String → Bool)
    (userId : String) (data : EventData) :
    (truthyOpt data.projectId = false →
      handleJoinProject oracle userId data
        = [SockEffect.emitSelf "error" "Project ID is required"])
    ∧ (truthyOpt data.projectId = false →
        handleLeaveProject oracle userId data = [])
    ∧ ((truthyOpt data.projectId && truthyOpt data.task) = false →
        handleTaskCreated oracle userId data
          = [SockEffect.emitSelf "error" "Invalid task data"])
    ∧ ((truthyOpt data.projectId && truthyOpt data.task) = false →
        handleTaskUpdated oracle userId data = [])
    ∧ ((truthyOpt data.projectId && truthyOpt data.taskId) = false →
        handleTaskDeleted oracle userId data = [])
    ∧ (truthyOpt data.project = false →
        handleProjectCreated oracle userId data = [])
    ∧ ((truthyOpt data.projectId && truthyOpt data.project) = false →
        handleProjectUpdated oracle userId data = [])
    ∧ ((truthyOpt data.projectId && truthyOpt data.note) = false →
        handleNoteCreated oracle userId data = [])
    ∧ (truthyOpt data.projectId = false →
        handleTypingStart oracle userId data = [])
    ∧ (truthyOpt data.projectId = false →
        handleTypingStop oracle userId data = []) := by
  refine ⟨?_, ?_, ?_, ?_, ?_, ?_, ?_, ?_, ?_, ?_⟩ <;> intro h <;>
    simp [handleJoinProject, handleLeaveProject, handleTaskCreated,
      handleTaskUpdated, handleTaskDeleted, handleProjectCreated,
      handleProjectUpdated, handleNoteCreated, handleTypingStart,
      handleTypingStop, h]

/-- C2 witness: the amended claim at concrete malformed messages — one
with every field missing, one `task:created` with a project id but no
task, and one `task:deleted` with a project id and task but no task id. -/
theorem malformed_message_traces_witness :
    handleJoinProject (fun _ _ => true) "u1" ⟨none, none, none, none, none⟩
      = [SockEffect.emitSelf "error" "Project ID is required"]
    ∧ handleTaskCreated (fun _ _ => true) "u1" ⟨some "p1", none, none, none, none⟩
      = [SockEffect.emitSelf "error" "Invalid task data"]
    ∧ handleTaskDeleted (fun _ _ => true) "u1" ⟨some "p1", some "t", none, none, none⟩
      = [] :=
  ⟨(malformed_message_traces (fun _ _ => true) "u1"
      ⟨none, none, none, none, none⟩).1 (by decide),
   (malformed_message_traces (fun _ _ => true) "u1"
      ⟨some "p1", none, none, none, none⟩).2.2.1 (by decide),
   (malformed_message_traces (fun _ _ => true) "u1"
      ⟨some "p1", some "t", none, none, none⟩).2.2.2.2.1 (by decide)⟩

/-- C3: for every entity-changed message (task created/updated/deleted,
project created/updated, note created), every room broadcast in the
handler's effect trace is preceded by a Room Membership Oracle query for
the message's project and the sending user, and when the oracle denies
membership, nothing is emitted to the project room.  (`project:created`
performs no room broadcast at all — it only echoes to the sender — so both
properties hold for it vacuously.) -/
theorem entity_changed_membership_gate (oracle : String → String → Bool)
    (userId : String) (data : EventData) :
    (guardedFanout (data.projectId.getD "") userId
        (handleTaskCreated oracle userId data) = true
      ∧ guardedFanout (data.projectId.getD "") userId
          (handleTaskUpdated oracle userId data) = true
      ∧ guardedFanout (data.projectId.getD "") userId
          (handleTaskDeleted oracle userId data) = true
      ∧ guardedFanout (data.projectId.getD "") userId
          (handleProjectCreated oracle userId data) = true
      ∧ guardedFanout (data.projectId.getD "") userId
          (handleProjectUpdated oracle userId data) = true
      ∧ guardedFanout (data.projectId.getD "") userId
          (handleNoteCreated oracle userId data) = true)
    ∧ (oracle (data.projectId.getD "") userId = false →
        noRoomEmit (handleTaskCreated oracle userId data) = true
        ∧ noRoomEmit (handleTaskUpdated oracle userId data) = true
        ∧ noRoomEmit (handleTaskDeleted oracle userId data) = true
        ∧ noRoomEmit (handleProjectCreated oracle userId data) = true
        ∧ noRoomEmit (handleProjectUpdated oracle userId data) = true
        ∧ noRoomEmit (handleNoteCreated oracle userId data) = true) := by
  constructor
  · refine ⟨?_, ?_, ?_, ?_, ?_, ?_⟩ <;>
      · by_cases h1 : truthyOpt data.projectId <;>
        by_cases h2 : truthyOpt data.task <;>
        by_cases h3 : truthyOpt data.taskId <;>
        by_cases h4 : truthyOpt data.project <;>
        by_cases h5 : truthyOpt data.note <;>
        by_cases ho : oracle (data.projectId.getD "") userId <;>
          simp [handleTaskCreated, handleTaskUpdated, handleTaskDeleted,
            handleProjectCreated, handleProjectUpdated, handleNoteCreated,
            guardedFanout, h1, h2, h3, h4, h5, ho]
  · intro ho
    refine ⟨?_, ?_, ?_, ?_, ?_, ?_⟩ <;>
      · by_cases h1 : truthyOpt data.projectId <;>
        by_cases h2 : truthyOpt data.task <;>
        by_cases h3 : truthyOpt data.taskId <;>
        by_cases h4 : truthyOpt data.project <;>
        by_cases h5 : truthyOpt data.note <;>
          simp [handleTaskCreated, handleTaskUpdated, handleTaskDeleted,
            handleProjectCreated, handleProjectUpdated, handleNoteCreated,
            noRoomEmit, h1, h2, h3, h4, h5, ho]

/-- C3 witness: with an always-denying oracle and a fully-populated
task-created message, nothing is emitted to the project room. -/
theorem entity_changed_membership_gate_witness :
    noRoomEmit (handleTaskCreated (fun _ _ => false) "u1"
      ⟨some "p1", some "t", some "tid", some "pr", some "n"⟩) = true :=
  ((entity_changed_membership_gate (fun _ _ => false) "u1"
      ⟨some "p1", some "t", some "tid", some "pr", some "n"⟩).2 rfl).1

/-! ## SocketManager (Backend/src/sockets/SocketManager.js)

The registry tracks `#connectedUsers : Map userId → Set socketId` and
`#socketToUser : Map socketId → userId`, plus the transport-level room
membership maintained by Socket.IO.  The source keys rooms with the
strings `user:<id>` and `project:<id>`; since that encoding is injective
(the two prefixes differ and the suffix is recovered by dropping the
prefix), rooms are modelled with a tagged key type. -/

/-- A Socket.IO room key: `user:<id>` or `project:<id>`. -/
inductive RoomKey where
  | user (id : String)
  | project (id : String)
deriving DecidableEq

/-- The in-memory state of the socket layer. -/
structure SocketRegistry where
  connectedUsers : List (String × List String)
  socketToUser : List (String × String)
  rooms : List (RoomKey × List String)
deriving DecidableEq

/-- The state before any connection. -/
def emptyRegistry : SocketRegistry :=
  { connectedUsers := [], socketToUser := [], rooms := [] }

/-- JS `Set.prototype.add`: append if absent. -/
def setAdd (s : List String) (x : String) : List String :=
  if x ∈ s then s else s ++ [x]

/-- Members of a room (empty when the room does not exist). -/
def roomMembers (st : SocketRegistry) (k : RoomKey) : List String :=
  (mapGet st.rooms k).getD []

/-- A socket joining a room (`socket.join`). -/
def roomJoin (rooms : List (RoomKey × List String)) (k : RoomKey) (s : String) :
    List (RoomKey × List String) :=
  mapSet rooms k (setAdd ((mapGet rooms k).getD []) s)

/-- The transport dropping a disconnected socket from every room. -/
def leaveAllRooms (rooms : List (RoomKey × List String)) (s : String) :
    List (RoomKey × List String) :=
  mapValues (fun _ mem => mem.filter (fun x => x ≠ s)) rooms

/-- A socket leaving one room (`socket.leave`). -/
def roomLeave (rooms : List (RoomKey × List String)) (k : RoomKey) (s : String) :
    List (RoomKey × List String) :=
  mapValues (fun k2 mem => if k2 = k then mem.filter (fun x => x ≠ s) else mem) rooms

/-- Model of `SocketManager.#handleConnection` (registry bookkeeping): record the
socket under its authenticated user and join the user's personal room. -/
def handleConnection (st : SocketRegistry) (userId socketId : String) :
    SocketRegistry :=
  { connectedUsers :=
      mapSet st.connectedUsers userId
        (setAdd ((mapGet st.connectedUsers userId).getD []) socketId)
    socketToUser := mapSet st.socketToUser socketId userId
    rooms := roomJoin st.rooms (RoomKey.user userId) socketId }

/-- Model of `SocketManager.#handleDisconnection`: delete the socket from the
user's set, dropping the user entry when the set becomes empty, and delete
the socket-to-user entry.  The method itself touches no rooms. -/
def handleDisconnection (st : SocketRegistry) (userId socketId : String) :
    SocketRegistry :=
  { connectedUsers :=
      match mapGet st.connectedUsers userId with
      | none => st.connectedUsers
      | some chans =>
        let chans2 := chans.filter (fun x => x ≠ socketId)
        if chans2 = [] then mapDelete st.connectedUsers userId
        else mapSet st.connectedUsers userId chans2
    socketToUser := mapDelete st.socketToUser socketId
    rooms := st.rooms }

/-- The operations the transport can drive the socket layer through. -/
inductive SocketOp where
  | connect (userId socketId : String)
  | disconnect (userId socketId : String)
  | joinProject (socketId projectId : String)
  | leaveProject (socketId projectId : String)
deriving DecidableEq

/-- One transport event: connection, disconnection (registry cleanup plus
the transport dropping the socket from all rooms), or an approved
project-room join/leave. -/
def stepOp (st : SocketRegistry) : SocketOp → SocketRegistry
  | SocketOp.connect u s => handleConnection st u s
  | SocketOp.disconnect u s =>
    let st2 := handleDisconnection st u s
    { st2 with rooms := leaveAllRooms st2.rooms s }
  | SocketOp.joinProject s p => { st with rooms := roomJoin st.rooms (RoomKey.project p) s }
  | SocketOp.leaveProject s p => { st with rooms := roomLeave st.rooms (RoomKey.project p) s }

/-- Transport guarantees: a connection carries a fresh socket id (Socket.IO
ids are unique among live connections) and a disconnection event comes
from a currently registered socket with its own authenticated user id. -/
def validOpB (st : SocketRegistry) : SocketOp → Bool
  | SocketOp.connect _ s => (mapGet st.socketToUser s).isNone
  | SocketOp.disconnect u s => mapGet st.socketToUser s = some u
  | SocketOp.joinProject _ _ => true
  | SocketOp.leaveProject _ _ => true

/-- Run a sequence of transport events. -/
def runOps (st : SocketRegistry) : List SocketOp → SocketRegistry
  | [] => st
  | op :: rest => runOps (stepOp st op) rest

/-- Every event in the sequence satisfies the transport guarantee at the
state where it fires. -/
def validRunB (st : SocketRegistry) : List SocketOp → Bool
  | [] => true
  | op :: rest => validOpB st op && validRunB (stepOp st op) rest

/-- Model of `SocketManager.emitToUser`: fan out to every socket of the user,
returning whether at least one existed.  The first component lists the
deliveries `(socketId, event, data)` in order. -/
def emitToUser (st : SocketRegistry) (userId event data : String) :
    List (String × String × String) × Bool :=
  match mapGet st.connectedUsers userId with
  | some chans =>
    if chans.length > 0 then (chans.map (fun s => (s, event, data)), true)
    else ([], false)
  | none => ([], false)

/-- Model of `SocketManager.emitToProject`: emit to the project room, excluding the
sockets in `user:<excludeUserId>` when a truthy exclude id is given.  The
first component lists the receiving socket ids. -/
def emitToProject (st : SocketRegistry) (projectId event data : String)
    (excludeUserId : Option String) : List String × Bool :=
  let members := roomMembers st (RoomKey.project projectId)
  if truthyOpt excludeUserId then
    ((members.filter
        (fun s => s ∉ roomMembers st (RoomKey.user (excludeUserId.getD "")))), true)
  else (members, true)

/-- The invariant linking the three tables of the socket layer. -/
structure RegInv (st : SocketRegistry) : Prop where
  noEmpty : ∀ u chans, mapGet st.connectedUsers u = some chans → chans ≠ []
  owners : ∀ u chans s, mapGet st.connectedUsers u = some chans → s ∈ chans →
    mapGet st.socketToUser s = some u
  ownersBack : ∀ s u, mapGet st.socketToUser s = some u →
    ∃ chans, mapGet st.connectedUsers u = some chans ∧ s ∈ chans
  roomSync : ∀ s u, s ∈ roomMembers st (RoomKey.user u) ↔
    mapGet st.socketToUser s = some u

/-! ## Registry invariant preservation -/

theorem setAdd_ne_nil (l : List String) (x : String) : setAdd l x ≠ [] := by
  unfold setAdd
  by_cases h : x ∈ l
  · simp only [h, if_pos]
    intro hl
    rw [hl] at h
    cases h
  · simp [h]

theorem mem_setAdd (l : List String) (x y : String) :
    y ∈ setAdd l x ↔ y ∈ l ∨ y = x := by
  unfold setAdd
  by_cases h : x ∈ l
  · simp only [h, if_pos]
    constructor
    · exact Or.inl
    · rintro (hy | rfl)
      · exact hy
      · exact h
  · simp [h]

theorem mem_filter_ne (l : List String) (s y : String) :
    y ∈ l.filter (fun x => x ≠ s) ↔ y ∈ l ∧ y ≠ s := by
  simp [List.mem_filter]

theorem filter_ne_of_not_mem (l : List String) (s : String) (h : s ∉ l) :
    l.filter (fun x => x ≠ s) = l := by
  apply List.filter_eq_self.mpr
  intro a ha
  simp only [decide_eq_true_eq]
  intro he
  exact h (he ▸ ha)

theorem inv_empty : RegInv emptyRegistry := by
  refine ⟨?_, ?_, ?_, ?_⟩
  · intro u chans h
    cases h
  · intro u chans s h
    cases h
  · intro s u h
    cases h
  · intro s u
    simp [emptyRegistry, roomMembers, mapGet]

theorem inv_connect (st : SocketRegistry) (u s : String) (hinv : RegInv st)
    (hfresh : mapGet st.socketToUser s = none) :
    RegInv (handleConnection st u s) := by
  refine ⟨?_, ?_, ?_, ?_⟩
  · -- noEmpty
    intro u2 chans h
    simp only [handleConnection] at h
    by_cases hu : u2 = u
    · subst hu
      rw [mapGet_set_self] at h
      injection h with h
      rw [← h]
      exact setAdd_ne_nil _ _
    · rw [mapGet_set_ne _ _ _ _ hu] at h
      exact hinv.noEmpty u2 chans h
  · -- owners
    intro u2 chans x h hx
    simp only [handleConnection] at h ⊢
    by_cases hu : u2 = u
    · subst hu
      rw [mapGet_set_self] at h
      injection h with h
      rw [← h] at hx
      rcases (mem_setAdd _ _ _).1 hx with hxc | hxs
      · rcases hcu : mapGet st.connectedUsers u2 with _ | chans1
        · rw [hcu] at hxc
          simp at hxc
        · rw [hcu] at hxc
          simp only [Option.getD_some] at hxc
          have hox := hinv.owners u2 chans1 x hcu hxc
          have hxns : x ≠ s := by
            intro he
            rw [he, hfresh] at hox
            cases hox
          rw [mapGet_set_ne _ _ _ _ hxns]
          exact hox
      · subst hxs
        exact mapGet_set_self _ _ _
    · rw [mapGet_set_ne _ _ _ _ hu] at h
      have hox := hinv.owners u2 chans x h hx
      have hxns : x ≠ s := by
        intro he
        rw [he, hfresh] at hox
        cases hox
      rw [mapGet_set_ne _ _ _ _ hxns]
      exact hox
  · -- ownersBack
    intro x u2 h
    simp only [handleConnection] at h ⊢
    by_cases hxs : x = s
    · rw [hxs] at h ⊢
      rw [mapGet_set_self] at h
      injection h with h
      rw [← h]
      exact ⟨setAdd ((mapGet st.connectedUsers u).getD []) s,
        mapGet_set_self _ _ _, (mem_setAdd _ _ _).2 (Or.inr rfl)⟩
    · rw [mapGet_set_ne _ _ _ _ hxs] at h
      rcases hinv.ownersBack x u2 h with ⟨chans, hc, hm⟩
      by_cases hu : u2 = u
      · subst hu
        refine ⟨setAdd ((mapGet st.connectedUsers u2).getD []) s, mapGet_set_self _ _ _, ?_⟩
        rw [hc]
        simp only [Option.getD_some]
        exact (mem_setAdd _ _ _).2 (Or.inl hm)
      · exact ⟨chans, by rw [mapGet_set_ne _ _ _ _ hu]; exact hc, hm⟩
  · -- roomSync
    intro x u2
    simp only [handleConnection, roomMembers, roomJoin] at *
    by_cases hu : u2 = u
    · subst hu
      rw [mapGet_set_self]
      simp only [Option.getD_some]
      rw [mem_setAdd]
      by_cases hxs : x = s
      · subst hxs
        rw [mapGet_set_self]
        simp
      · rw [mapGet_set_ne _ _ _ _ hxs]
        have hrs := hinv.roomSync x u2
        simp only [roomMembers] at hrs
        constructor
        · rintro (hx | rfl)
          · exact hrs.1 hx
          · exact absurd rfl hxs
        · intro hx
          exact Or.inl (hrs.2 hx)
    · have hku : (RoomKey.user u2) ≠ (RoomKey.user u) := by
        intro hk
        injection hk with hk
        exact hu hk
      rw [mapGet_set_ne _ _ _ _ hku]
      by_cases hxs : x = s
      · subst hxs
        rw [mapGet_set_self]
        have hrs := hinv.roomSync x u2
        simp only [roomMembers] at hrs
        constructor
        · intro hx
          have := hrs.1 hx
          rw [hfresh] at this
          cases this
        · intro hx
          injection hx with hx
          exact absurd hx.symm hu
      · rw [mapGet_set_ne _ _ _ _ hxs]
        have hrs := hinv.roomSync x u2
        simp only [roomMembers] at hrs
        exact hrs

theorem inv_disconnect (st : SocketRegistry) (u s : String) (hinv : RegInv st)
    (hown : mapGet st.socketToUser s = some u) :
    RegInv (stepOp st (SocketOp.disconnect u s)) := by
  rcases hinv.ownersBack s u hown with ⟨chans, hcu, hs⟩
  have hcu2 : (stepOp st (SocketOp.disconnect u s)).connectedUsers
      = if chans.filter (fun x => x ≠ s) = [] then mapDelete st.connectedUsers u
        else mapSet st.connectedUsers u (chans.filter (fun x => x ≠ s)) := by
    simp [stepOp, handleDisconnection, hcu]
  have hstu : (stepOp st (SocketOp.disconnect u s)).socketToUser
      = mapDelete st.socketToUser s := by
    simp [stepOp, handleDisconnection]
  have hmem : ∀ k, roomMembers (stepOp st (SocketOp.disconnect u s)) k
      = (roomMembers st k).filter (fun x => x ≠ s) := by
    intro k
    show ((mapGet (leaveAllRooms st.rooms s) k).getD []) = _
    unfold leaveAllRooms
    rw [mapGet_mapValues]
    unfold roomMembers
    cases mapGet st.rooms k <;> simp
  refine ⟨?_, ?_, ?_, ?_⟩
  · -- noEmpty
    intro u2 c h
    rw [hcu2] at h
    by_cases hF : chans.filter (fun x => x ≠ s) = []
    · rw [if_pos hF] at h
      by_cases hu : u2 = u
      · subst hu
        rw [mapGet_del_self] at h
        cases h
      · rw [mapGet_del_ne _ _ _ hu] at h
        exact hinv.noEmpty u2 c h
    · rw [if_neg hF] at h
      by_cases hu : u2 = u
      · subst hu
        rw [mapGet_set_self] at h
        injection h with h
        rw [← h]
        exact hF
      · rw [mapGet_set_ne _ _ _ _ hu] at h
        exact hinv.noEmpty u2 c h
  · -- owners
    intro u2 c x h hx
    rw [hcu2] at h
    rw [hstu]
    by_cases hF : chans.filter (fun x => x ≠ s) = []
    · rw [if_pos hF] at h
      by_cases hu : u2 = u
      · subst hu
        rw [mapGet_del_self] at h
        cases h
      · rw [mapGet_del_ne _ _ _ hu] at h
        have hox := hinv.owners u2 c x h hx
        have hxs : x ≠ s := by
          intro he
          rw [he, hown] at hox
          injection hox with hox
          exact hu hox.symm
        rw [mapGet_del_ne _ _ _ hxs]
        exact hox
    · rw [if_neg hF] at h
      by_cases hu : u2 = u
      · subst hu
        rw [mapGet_set_self] at h
        injection h with h
        rw [← h] at hx
        rcases (mem_filter_ne _ _ _).1 hx with ⟨hxc, hxs⟩
        rw [mapGet_del_ne _ _ _ hxs]
        exact hinv.owners _ chans x hcu hxc
      · rw [mapGet_set_ne _ _ _ _ hu] at h
        have hox := hinv.owners u2 c x h hx
        have hxs : x ≠ s := by
          intro he
          rw [he, hown] at hox
          injection hox with hox
          exact hu hox.symm
        rw [mapGet_del_ne _ _ _ hxs]
        exact hox
  · -- ownersBack
    intro x u2 h
    rw [hstu] at h
    rw [hcu2]
    by_cases hxs : x = s
    · rw [hxs, mapGet_del_self] at h
      cases h
    · rw [mapGet_del_ne _ _ _ hxs] at h
      rcases hinv.ownersBack x u2 h with ⟨c, hc, hm⟩
      by_cases hu : u2 = u
      · subst hu
        have hceq : c = chans := by
          rw [hc] at hcu
          injection hcu
        rw [hceq] at hm
        have hxF : x ∈ chans.filter (fun y => y ≠ s) := (mem_filter_ne _ _ _).2 ⟨hm, hxs⟩
        by_cases hF : chans.filter (fun y => y ≠ s) = []
        · rw [hF] at hxF
          cases hxF
        · rw [if_neg hF]
          exact ⟨chans.filter (fun y => y ≠ s), mapGet_set_self _ _ _, hxF⟩
      · by_cases hF : chans.filter (fun y => y ≠ s) = []
        · rw [if_pos hF]
          exact ⟨c, by rw [mapGet_del_ne _ _ _ hu]; exact hc, hm⟩
        · rw [if_neg hF]
          exact ⟨c, by rw [mapGet_set_ne _ _ _ _ hu]; exact hc, hm⟩
  · -- roomSync
    intro x u2
    rw [hmem, hstu]
    rw [mem_filter_ne]
    by_cases hxs : x = s
    · rw [hxs, mapGet_del_self]
      simp [hxs]
    · rw [mapGet_del_ne _ _ _ hxs]
      have hrs := hinv.roomSync x u2
      constructor
      · rintro ⟨hx, _⟩
        exact hrs.1 hx
      · intro hx
        exact ⟨hrs.2 hx, hxs⟩

theorem inv_joinProject (st : SocketRegistry) (s p : String) (hinv : RegInv st) :
    RegInv (stepOp st (SocketOp.joinProject s p)) := by
  refine ⟨hinv.noEmpty, hinv.owners, hinv.ownersBack, ?_⟩
  intro x u2
  have hk : (RoomKey.user u2) ≠ (RoomKey.project p) := by
    intro hke
    cases hke
  show x ∈ (mapGet (roomJoin st.rooms (RoomKey.project p) s) (RoomKey.user u2)).getD [] ↔ _
  unfold roomJoin
  rw [mapGet_set_ne _ _ _ _ hk]
  exact hinv.roomSync x u2

theorem inv_leaveProject (st : SocketRegistry) (s p : String) (hinv : RegInv st) :
    RegInv (stepOp st (SocketOp.leaveProject s p)) := by
  refine ⟨hinv.noEmpty, hinv.owners, hinv.ownersBack, ?_⟩
  intro x u2
  show x ∈ (mapGet (roomLeave st.rooms (RoomKey.project p) s) (RoomKey.user u2)).getD [] ↔ _
  unfold roomLeave
  rw [mapGet_mapValues]
  have hk : ¬ (RoomKey.user u2) = (RoomKey.project p) := by
    intro hke
    cases hke
  have hrs := hinv.roomSync x u2
  unfold roomMembers at hrs
  cases hg : mapGet st.rooms (RoomKey.user u2) with
  | none =>
    rw [hg] at hrs
    simpa using hrs
  | some mem =>
    rw [hg] at hrs
    simp only [Option.map_some, Option.getD_some, hk, if_neg, ite_false]
    simpa using hrs

theorem inv_stepOp (st : SocketRegistry) (op : SocketOp) (hinv : RegInv st)
    (hval : validOpB st op = true) : RegInv (stepOp st op) := by
  cases op with
  | connect u s =>
    have hfresh : mapGet st.socketToUser s = none := by
      simp only [validOpB, Option.isNone_iff_eq_none] at hval
      exact hval
    exact inv_connect st u s hinv hfresh
  | disconnect u s =>
    have hown : mapGet st.socketToUser s = some u := by
      simp only [validOpB, decide_eq_true_eq] at hval
      exact hval
    exact inv_disconnect st u s hinv hown
  | joinProject s p => exact inv_joinProject st s p hinv
  | leaveProject s p => exact inv_leaveProject st s p hinv

theorem inv_runOps (st : SocketRegistry) (ops : List SocketOp) (hinv : RegInv st)
    (hval : validRunB st ops = true) : RegInv (runOps st ops) := by
  induction ops generalizing st with
  | nil => exact hinv
  | cons op rest ih =>
    simp only [validRunB, Bool.and_eq_true] at hval
    exact ih (stepOp st op) (inv_stepOp st op hinv hval.1) hval.2

/-! ## Claims C4, C5, C6, C7 — connection registry -/

/-- C4: after every transport-valid sequence of register/unregister (and
room join/leave) operations from the empty registry, each channel id
appears in the channel set of at most one user, and no user id maps to an
empty channel set (removing a user's last channel removes the entry). -/
theorem connection_registry_invariant (ops : List SocketOp)
    (hval : validRunB emptyRegistry ops = true) :
    (∀ u1 u2 c1 c2 s, mapGet (runOps emptyRegistry ops).connectedUsers u1 = some c1 →
      mapGet (runOps emptyRegistry ops).connectedUsers u2 = some c2 →
      s ∈ c1 → s ∈ c2 → u1 = u2)
    ∧ (∀ u c, mapGet (runOps emptyRegistry ops).connectedUsers u = some c → c ≠ []) := by
  have hinv := inv_runOps emptyRegistry ops inv_empty hval
  constructor
  · intro u1 u2 c1 c2 s h1 h2 hs1 hs2
    have o1 := hinv.owners u1 c1 s h1 hs1
    have o2 := hinv.owners u2 c2 s h2 hs2
    rw [o1] at o2
    injection o2
  · exact hinv.noEmpty

/-- C4 witness: a concrete run — two connections for `u1`, one for `u2`,
then `u1` loses `s1` — leaves `u1` with exactly `[s2]`, which is nonempty
as the invariant demands. -/
theorem connection_registry_invariant_witness :
    mapGet (runOps emptyRegistry
        [SocketOp.connect "u1" "s1", SocketOp.connect "u1" "s2",
         SocketOp.connect "u2" "s3", SocketOp.disconnect "u1" "s1"]).connectedUsers "u1"
      = some ["s2"]
    ∧ (["s2"] : List String) ≠ [] := by
  refine ⟨by decide, ?_⟩
  exact (connection_registry_invariant
    [SocketOp.connect "u1" "s1", SocketOp.connect "u1" "s2",
     SocketOp.connect "u2" "s3", SocketOp.disconnect "u1" "s1"] (by decide)).2
    "u1" ["s2"] (by decide)

/-- C5: unregistering a channel that was never registered (it is in no
user's channel set and has no socket-to-user entry; channel sets are
nonempty as the registry maintains) leaves the registry state unchanged,
and the operation — which is a total function — raises no error. -/
theorem unregister_never_registered_noop (st : SocketRegistry) (u s : String)
    (hchan : ∀ u2 chans, mapGet st.connectedUsers u2 = some chans →
      s ∉ chans ∧ chans ≠ [])
    (hstu : mapGet st.socketToUser s = none) :
    handleDisconnection st u s = st := by
  have hdel : mapDelete st.socketToUser s = st.socketToUser :=
    mapDelete_of_get_none _ _ hstu
  unfold handleDisconnection
  cases hg : mapGet st.connectedUsers u with
  | none =>
    simp only [hg]
    rw [hdel]
  | some chans =>
    rcases hchan u chans hg with ⟨hnm, hne⟩
    have hf : chans.filter (fun x => x ≠ s) = chans := filter_ne_of_not_mem chans s hnm
    simp only [hg, hf]
    rw [if_neg hne, mapSet_of_get_eq _ _ _ hg, hdel]

/-- C5 witness: unregistering the unknown channel `zz` leaves a concrete
one-user registry exactly as it was. -/
theorem unregister_never_registered_noop_witness :
    handleDisconnection
      { connectedUsers := [("u1", ["a"])], socketToUser := [("a", "u1")], rooms := [] }
      "u2" "zz"
    = { connectedUsers := [("u1", ["a"])], socketToUser := [("a", "u1")], rooms := [] } :=
  unregister_never_registered_noop _ "u2" "zz"
    (fun u2 chans h => by
      simp only [mapGet] at h
      split at h
      · injection h with h
        rw [← h]
        exact ⟨by decide, by decide⟩
      · cases h)
    (by decide)

/-- C6: `emitToUser` delivers the event to exactly the currently
registered channels of the user, in registration order, and returns `true`
precisely when the user has at least one open channel; with zero channels
it delivers nothing and returns `false`. -/
theorem send_to_user_fanout (st : SocketRegistry) (u event data : String) :
    (emitToUser st u event data).1
      = ((mapGet st.connectedUsers u).getD []).map (fun s => (s, event, data))
    ∧ ((emitToUser st u event data).2 = true ↔
        (mapGet st.connectedUsers u).getD [] ≠ []) := by
  unfold emitToUser
  cases hg : mapGet st.connectedUsers u with
  | none => simp
  | some chans =>
    cases chans with
    | nil => simp
    | cons a rest => simp

/-- C7: in every transport-valid run, a room fan-out that excludes user X
delivers to no channel owned by X (even when X joined from several
channels) and to every channel of the project room owned by a different
user. -/
theorem room_fanout_excludes_user (ops : List SocketOp) (x p event data : String)
    (hval : validRunB emptyRegistry ops = true) (hx : x ≠ "") :
    (∀ s, mapGet (runOps emptyRegistry ops).socketToUser s = some x →
      s ∉ (emitToProject (runOps emptyRegistry ops) p event data (some x)).1)
    ∧ (∀ s u, s ∈ roomMembers (runOps emptyRegistry ops) (RoomKey.project p) →
        mapGet (runOps emptyRegistry ops).socketToUser s = some u → u ≠ x →
        s ∈ (emitToProject (runOps emptyRegistry ops) p event data (some x)).1) := by
  have hinv := inv_runOps emptyRegistry ops inv_empty hval
  set st := runOps emptyRegistry ops
  have hexc : (emitToProject st p event data (some x)).1
      = (roomMembers st (RoomKey.project p)).filter
          (fun s => s ∉ roomMembers st (RoomKey.user x)) := by
    unfold emitToProject
    simp [truthyOpt, hx]
  constructor
  · intro s hs hmem
    rw [hexc] at hmem
    have hnm := (List.mem_filter.1 hmem).2
    rw [decide_eq_true_eq] at hnm
    exact hnm ((hinv.roomSync s x).2 hs)
  · intro s u hsp hsu hux
    rw [hexc]
    apply List.mem_filter.2
    refine ⟨hsp, ?_⟩
    rw [decide_eq_true_eq]
    intro hmem
    have hox := (hinv.roomSync s x).1 hmem
    rw [hsu] at hox
    injection hox with hox
    exact hux hox

/-- C7 witness: with `a` on channel `s1` and `b` on channel `s2`, both
joined to project room `P`, the fan-out excluding `a` does not reach
`s1`. -/
theorem room_fanout_excludes_user_witness :
    "s1" ∉ (emitToProject
      (runOps emptyRegistry
        [SocketOp.connect "a" "s1", SocketOp.connect "b" "s2",
         SocketOp.joinProject "s1" "P", SocketOp.joinProject "s2" "P"])
      "P" "ev" "dt" (some "a")).1 :=
  (room_fanout_excludes_user
    [SocketOp.connect "a" "s1", SocketOp.connect "b" "s2",
     SocketOp.joinProject "s1" "P", SocketOp.joinProject "s2" "P"]
    "a" "P" "ev" "dt" (by decide) (by decide)).1 "s1" (by decide)
